import Mathlib

/-!
Shallow embedding of `src/movie_recommendations.py`, an item-based
collaborative-filtering engine.

Modelling conventions:
* Python `dict`s (insertion ordered, unique keys) are association lists
  `List (Int × α)`; `dlookup` is `d[k]` / `k in d`, `dinsert` is `d[k] = v`
  (replace in place if the key is present, append otherwise).
* Python floats are modelled as `ℚ` (all arithmetic in the source is exact
  on the rating data: sums, absolute differences, divisions).
* Exceptions are modelled with `Except Err`: `Err.badInput` is the source's
  `BadInputError`, `Err.keyError` a raw Python `KeyError` from a failed
  `d[k]` subscript.
* Methods that mutate the movie objects' similarity caches return the
  updated movie dictionary; `user_dict` is never written after
  construction (the source only reads it), so it is passed unchanged.
-/

/-- Python dict lookup `d.get(k)`: value at the first occurrence of the key. -/
def dlookup {α : Type} : List (Int × α) → Int → Option α
  | [], _ => none
  | (k, v) :: rest, key => if k = key then some v else dlookup rest key

/-- Python dict assignment `d[k] = v`: replace the value at the key in place
if present, otherwise append the binding at the end (insertion order). -/
def dinsert {α : Type} : List (Int × α) → Int → α → List (Int × α)
  | [], key, val => [(key, val)]
  | (k, v) :: rest, key, val =>
    if k = key then (key, val) :: rest else (k, v) :: dinsert rest key val

/-- One user's ratings: movie id → rating (`self.user_dict[u]`). -/
abbrev Ratings := List (Int × ℚ)

/-- `self.user_dict`: user id → that user's ratings. -/
abbrev UserDict := List (Int × Ratings)

/-- The two exception kinds the source can raise: its own `BadInputError`
and an uncaught `KeyError` from a dictionary subscript. -/
inductive Err : Type
  | badInput (msg : String)
  | keyError
deriving DecidableEq

/-- Class `Movie`: id, title, the ids of the users who rated it, and the
memoized similarity cache (other movie id → similarity). -/
structure Movie : Type where
  id : Int
  title : String
  users : List Int
  similarities : List (Int × ℚ)
deriving DecidableEq

/-- `self.movie_dict`: movie id → `Movie` object. -/
abbrev MovieDict := List (Int × Movie)

/-- One step of the co-rater scan in `Movie.compute_similarity`: if this
user rated both movies, add `abs(rtg_1 - rtg_2)` to the running difference
total and bump the rating count. -/
def simStep (selfId otherId : Int) (acc : ℚ × ℕ) (p : Int × Ratings) : ℚ × ℕ :=
  match dlookup p.2 selfId, dlookup p.2 otherId with
  | some rtg1, some rtg2 => (acc.1 + |rtg1 - rtg2|, acc.2 + 1)
  | _, _ => acc

/-- Body of `Movie.compute_similarity` as a function of the calling movie's
id (the only field of `self` the method reads): scan `user_dict` for users
who rated both movies, and return `1 - (abs_diff/num)/4.5` (`4.5 = 9/2`)
when at least one was found, else `0`. -/
def simValue (selfId otherId : Int) (user_dict : UserDict) : ℚ :=
  let acc := user_dict.foldl (simStep selfId otherId) (0, 0)
  if acc.2 ≠ 0 then 1 - (acc.1 / (acc.2 : ℚ)) / (9 / 2) else 0

/-- `Movie.compute_similarity(self, other_movie_id, movie_dict, user_dict)`.
The source method receives `movie_dict` but never uses it, and reads only
`self.id` from `self`. -/
def Movie.compute_similarity (self : Movie) (other_movie_id : Int)
    (movie_dict : MovieDict) (user_dict : UserDict) : ℚ :=
  simValue self.id other_movie_id user_dict

/-- `movie_dict[selfId].get_similarity(other_movie_id, movie_dict, user_dict)`,
including the caller's subscript `movie_dict[selfId]` (a raw `KeyError` when
absent, as at the call site in `predict_rating`).  The method itself: raise
`BadInputError` if `other_movie_id` is not in `movie_dict`; return the value
cached in `self.similarities` if present; otherwise compute the similarity
and store it in both movies' caches (the write into the other movie's cache
is keyed by `self.id`). -/
def get_similarity (selfId other_movie_id : Int) (movie_dict : MovieDict)
    (user_dict : UserDict) : Except Err (ℚ × MovieDict) :=
  match dlookup movie_dict selfId with
  | none => .error .keyError
  | some self =>
    if (dlookup movie_dict other_movie_id).isNone then
      .error (.badInput "Movie id not in database")
    else
      match dlookup self.similarities other_movie_id with
      | some s => .ok (s, movie_dict)
      | none =>
        let s := self.compute_similarity other_movie_id movie_dict user_dict
        let md1 := dinsert movie_dict selfId
          { self with similarities := dinsert self.similarities other_movie_id s }
        let md2 := match dlookup md1 other_movie_id with
          | some other => dinsert md1 other_movie_id
            { other with similarities := dinsert other.similarities self.id s }
          | none => md1
        .ok (s, md2)

/-- The `for key in ratings` loop of `predict_rating`: accumulate
`total += similarity * ratings[key]` and `sum_of_similarities += similarity`,
threading the movie dictionary through the cache-filling calls.  The
subscript `self.movie_dict[key]` is part of `get_similarity` here. -/
def predictLoop (movie_id : Int) : Ratings → ℚ → ℚ → MovieDict → UserDict →
    Except Err (ℚ × ℚ × MovieDict)
  | [], total, sumSim, md, _ => .ok (total, sumSim, md)
  | (key, r) :: rest, total, sumSim, md, ud =>
    match get_similarity key movie_id md ud with
    | .error e => .error e
    | .ok (similarity, md1) =>
      predictLoop movie_id rest (total + similarity * r) (sumSim + similarity) md1 ud

/-- `Movie_Recommendations.predict_rating(self, user_id, movie_id)`:
raise `BadInputError` when the user or the movie is unknown; return the
user's own rating when it exists; otherwise return the similarity-weighted
average of the user's ratings, or `2.5 = 5/2` when the similarities sum
to zero. -/
def predict_rating (user_id movie_id : Int) (movie_dict : MovieDict)
    (user_dict : UserDict) : Except Err (ℚ × MovieDict) :=
  if (dlookup user_dict user_id).isNone || (dlookup movie_dict movie_id).isNone then
    .error (.badInput "User or movie id not in database")
  else
    let ratings := (dlookup user_dict user_id).getD []
    match dlookup ratings movie_id with
    | some r => .ok (r, movie_dict)
    | none =>
      match predictLoop movie_id ratings 0 0 movie_dict user_dict with
      | .error e => .error e
      | .ok (total, sum_of_similarities, md1) =>
        if sum_of_similarities ≠ 0 then .ok (total / sum_of_similarities, md1)
        else .ok (5 / 2, md1)

/-- `Movie_Recommendations.predict_ratings(self, test_ratings_filename)`,
after the file has been parsed into `(user_id, movie_id, rating)` records:
for each record build `(user_id, str(movie), predicted, actual)`.  The
subscript `self.movie_dict[mov_id]` is evaluated before `predict_rating`
(left-to-right tuple evaluation), so an unknown movie raises a raw
`KeyError`; `str(movie)` is `Movie.__str__`, i.e. the title. -/
def predict_ratings : List (Int × Int × ℚ) → MovieDict → UserDict →
    Except Err (List (Int × String × ℚ × ℚ) × MovieDict)
  | [], md, _ => .ok ([], md)
  | (user_id, mov_id, mov_rating) :: rest, md, ud =>
    match dlookup md mov_id with
    | none => .error .keyError
    | some mov =>
      match predict_rating user_id mov_id md ud with
      | .error e => .error e
      | .ok (p, md1) =>
        match predict_ratings rest md1 ud with
        | .error e => .error e
        | .ok (lst, md2) => .ok ((user_id, mov.title, p, mov_rating) :: lst, md2)

/-- The movie-catalog loading loop of `Movie_Recommendations.__init__`,
after CSV parsing: `self.movie_dict[mov_id] = Movie(mov_id, mov_title)`. -/
def loadMovies (catalog : List (Int × String)) : MovieDict :=
  catalog.foldl (fun md p => dinsert md p.1 ⟨p.1, p.2, [], []⟩) []

/-- The training-ratings loading loop of `Movie_Recommendations.__init__`,
after CSV parsing: create the user's dictionary if absent, store the
rating, then `self.movie_dict[mov_id].users.append(cur_user_id)` — a raw
`KeyError` when the rated movie is not in the catalog. -/
def loadRatings : List (Int × Int × ℚ) → UserDict → MovieDict →
    Except Err (UserDict × MovieDict)
  | [], ud, md => .ok (ud, md)
  | (cur_user_id, mov_id, mov_rating) :: rest, ud, md =>
    let ud1 := if (dlookup ud cur_user_id).isNone then dinsert ud cur_user_id [] else ud
    let ud2 := dinsert ud1 cur_user_id
      (dinsert ((dlookup ud1 cur_user_id).getD []) mov_id mov_rating)
    match dlookup md mov_id with
    | none => .error .keyError
    | some mov =>
      loadRatings rest ud2 (dinsert md mov_id { mov with users := mov.users ++ [cur_user_id] })

/-- The engine object built by `Movie_Recommendations.__init__`. -/
structure Movie_Recommendations : Type where
  movie_dict : MovieDict
  user_dict : UserDict
deriving DecidableEq

/-- `Movie_Recommendations.__init__`, after CSV parsing: build the movie
catalog, then load the training ratings (which may raise `KeyError`, in
which case no engine object is produced). -/
def mkEngine (catalog : List (Int × String)) (training : List (Int × Int × ℚ)) :
    Except Err Movie_Recommendations :=
  match loadRatings training [] (loadMovies catalog) with
  | .error e => .error e
  | .ok (ud, md) => .ok ⟨md, ud⟩

/-- The co-rater records of a movie pair: the entries of `user_dict`
whose user rated both movies (the spec's set `C`). -/
def coRaters (user_dict : UserDict) (a b : Int) : UserDict :=
  user_dict.filter fun p => (dlookup p.2 a).isSome && (dlookup p.2 b).isSome

/-- The absolute rating difference `|rating(u,a) - rating(u,b)|` a
co-rater record contributes. -/
def simDiff (a b : Int) (p : Int × Ratings) : ℚ :=
  |(dlookup p.2 a).getD 0 - (dlookup p.2 b).getD 0|

/-- Similarity as the spec words it: `0` when the co-rater set is empty,
otherwise `1 - avg_abs_diff / 4.5` with `avg_abs_diff` the mean of the
co-raters' absolute rating differences. -/
def specSimilarity (a b : Int) (user_dict : UserDict) : ℚ :=
  let C := coRaters user_dict a b
  if C = [] then 0
  else 1 - ((C.map (simDiff a b)).sum / (C.length : ℚ)) / (9 / 2)

/-- Every movie object is stored under its own id, as construction
guarantees (`self.movie_dict[mov_id] = Movie(mov_id, mov_title)`). -/
def WFids (md : MovieDict) : Prop :=
  ∀ a mov, dlookup md a = some mov → mov.id = a

/-- Every cached similarity is the value the co-rater scan produces for
that pair: memoization never stores anything else. -/
def CacheCorrect (md : MovieDict) (ud : UserDict) : Prop :=
  ∀ a b mov v, dlookup md a = some mov → dlookup mov.similarities b = some v →
    v = simValue a b ud

/-- Cache entries come in symmetric pairs: `get_similarity` always writes
both directions together. -/
def CacheSym (md : MovieDict) : Prop :=
  ∀ a b mA mB, dlookup md a = some mA → dlookup md b = some mB →
    ((dlookup mA.similarities b).isSome ↔ (dlookup mB.similarities a).isSome)

/-- The invariant every reachable movie dictionary satisfies. -/
def GoodState (md : MovieDict) (ud : UserDict) : Prop :=
  WFids md ∧ CacheCorrect md ud ∧ CacheSym md

/-- Per-movie frame property: id, title and rater list unchanged;
similarity-cache entries preserved exactly (additions only — entries are
never removed and never overwritten with a different value). -/
def MovieFrame (m m' : Movie) : Prop :=
  m'.id = m.id ∧ m'.title = m.title ∧ m'.users = m.users ∧
  ∀ k v, dlookup m.similarities k = some v → dlookup m'.similarities k = some v

/-- Store frame property: the catalog's key set is unchanged and every
movie object evolves only per `MovieFrame`. -/
def MdFrame (md md' : MovieDict) : Prop :=
  (∀ k, (dlookup md' k).isSome ↔ (dlookup md k).isSome) ∧
  ∀ k m m', dlookup md k = some m → dlookup md' k = some m' → MovieFrame m m'

/-- Consistency of the two indices: every movie id appearing in any user's
rating dictionary is a key of the movie catalog.  Construction guarantees
this (a training rating for an unknown movie aborts `__init__`). -/
def AllRatedKnown (ud : UserDict) (md : MovieDict) : Prop :=
  ∀ p ∈ ud, ∀ q ∈ p.2, (dlookup md q.1).isSome = true

/-- The error the first offending probe record produces: an unknown movie
id fails the subscript `self.movie_dict[mov_id]` (raw `KeyError`) before
`predict_rating` runs; an unknown user with a known movie reaches
`predict_rating` and raises `BadInputError`. -/
def firstBad (md : MovieDict) (ud : UserDict) : List (Int × Int × ℚ) → Option Err
  | [] => none
  | (u, m, _) :: rest =>
    if (dlookup md m).isNone then some .keyError
    else if (dlookup ud u).isNone then
      some (.badInput "User or movie id not in database")
    else firstBad md ud rest

/-- Movie 1, "A", rated by users 1 and 2, cache empty. -/
def exMv1 : Movie := ⟨1, "A", [1, 2], []⟩

/-- Movie 2, "B", rated by users 1 and 2, cache empty. -/
def exMv2 : Movie := ⟨2, "B", [1, 2], []⟩

/-- Catalog `{1: "A", 2: "B"}` (the spec's end-to-end example). -/
def exMd : MovieDict := [(1, exMv1), (2, exMv2)]

/-- Training ratings `user1: {1:5, 2:3}`, `user2: {1:4, 2:4}`, `user3: {1:4}`. -/
def exUd : UserDict := [(1, [(1, 5), (2, 3)]), (2, [(1, 4), (2, 4)]), (3, [(1, 4)])]

/-- A user dictionary in which nobody co-rated movies 1 and 2. -/
def exUdSolo : UserDict := [(1, [(1, 5)])]

/-! ### Association-list lemmas -/

theorem dlookup_dinsert {α : Type} (l : List (Int × α)) (k : Int) (v : α) (k' : Int) :
    dlookup (dinsert l k v) k' = if k = k' then some v else dlookup l k' := by
  induction l with
  | nil => simp [dinsert, dlookup]
  | cons p rest ih =>
    obtain ⟨pk, pv⟩ := p
    by_cases h1 : pk = k
    · subst h1
      by_cases h2 : pk = k' <;> simp [dinsert, dlookup, h2]
    · by_cases h2 : pk = k'
      · subst h2
        simp [dinsert, dlookup, h1, Ne.symm h1]
      · simp [dinsert, dlookup, h1, h2, ih]

theorem dlookup_mem {α : Type} {l : List (Int × α)} {k : Int} {v : α}
    (h : dlookup l k = some v) : (k, v) ∈ l := by
  induction l with
  | nil => simp [dlookup] at h
  | cons p rest ih =>
    obtain ⟨pk, pv⟩ := p
    by_cases h1 : pk = k
    · subst h1
      simp [dlookup] at h
      simp [h]
    · simp [dlookup, h1] at h
      simp [ih h]

theorem dinsert_dinsert {α : Type} (l : List (Int × α)) (k : Int) (v w : α) :
    dinsert (dinsert l k v) k w = dinsert l k w := by
  induction l with
  | nil => simp [dinsert]
  | cons p rest ih =>
    obtain ⟨pk, pv⟩ := p
    by_cases h1 : pk = k
    · subst h1; simp [dinsert]
    · simp [dinsert, h1, ih]

/-! ### The similarity scan as a fold over the co-rater records -/

theorem simFold_eq (a b : Int) (ud : UserDict) (acc : ℚ × ℕ) :
    ud.foldl (simStep a b) acc =
      (acc.1 + ((coRaters ud a b).map (simDiff a b)).sum,
       acc.2 + (coRaters ud a b).length) := by
  induction ud generalizing acc with
  | nil => simp [coRaters]
  | cons p rest ih =>
    rcases h1 : dlookup p.2 a with _ | r1 <;> rcases h2 : dlookup p.2 b with _ | r2 <;>
      simp only [List.foldl_cons, coRaters, List.filter_cons, h1, h2, Option.isSome_none,
        Option.isSome_some, Bool.false_and, Bool.and_false, Bool.and_self,
        Bool.true_and, if_false, if_true, reduceIte] <;>
      simp only [simStep, h1, h2] <;>
      rw [ih]
    · rfl
    · rfl
    · rfl
    · simp only [coRaters, List.map_cons, List.sum_cons, List.length_cons, simDiff, h1, h2,
        Option.getD_some, Prod.mk.injEq]
      constructor
      · ring
      · omega

theorem simValue_eq_spec (a b : Int) (ud : UserDict) :
    simValue a b ud = specSimilarity a b ud := by
  unfold simValue specSimilarity
  rw [simFold_eq]
  by_cases h : coRaters ud a b = []
  · simp [h]
  · have hlen : (coRaters ud a b).length ≠ 0 := by
      simpa [List.length_eq_zero] using h
    simp [h, hlen]

theorem simStep_comm (a b : Int) (acc : ℚ × ℕ) (p : Int × Ratings) :
    simStep a b acc p = simStep b a acc p := by
  unfold simStep
  rcases dlookup p.2 a with _ | r1 <;> rcases dlookup p.2 b with _ | r2 <;>
    simp [abs_sub_comm]

theorem simValue_comm (a b : Int) (ud : UserDict) :
    simValue a b ud = simValue b a ud := by
  unfold simValue
  have hstep : simStep a b = simStep b a := by
    funext acc p; exact simStep_comm a b acc p
  rw [hstep]

/-! ### Branch equations for `get_similarity` -/

theorem get_similarity_keyError {md : MovieDict} {ud : UserDict} {a b : Int}
    (hA : dlookup md a = none) :
    get_similarity a b md ud = .error .keyError := by
  unfold get_similarity
  rw [hA]

theorem get_similarity_badInput {md : MovieDict} {ud : UserDict} {a b : Int} {movA : Movie}
    (hA : dlookup md a = some movA) (hB : dlookup md b = none) :
    get_similarity a b md ud = .error (.badInput "Movie id not in database") := by
  unfold get_similarity
  rw [hA, hB]
  rfl

theorem get_similarity_hit {md : MovieDict} {ud : UserDict} {a b : Int} {movA : Movie} {s : ℚ}
    (hA : dlookup md a = some movA) (hB : (dlookup md b).isSome)
    (hc : dlookup movA.similarities b = some s) :
    get_similarity a b md ud = .ok (s, md) := by
  unfold get_similarity
  rw [hA]
  rw [Option.isSome_iff_ne_none] at hB
  simp only [Option.isNone_iff_eq_none, hB, if_false, hc]

theorem get_similarity_miss_ne {md : MovieDict} {ud : UserDict} {a b : Int} {movA movB : Movie}
    (hA : dlookup md a = some movA) (hB : dlookup md b = some movB)
    (hc : dlookup movA.similarities b = none) (hab : a ≠ b) :
    get_similarity a b md ud =
      .ok (simValue movA.id b ud,
        dinsert
          (dinsert md a
            { movA with
              similarities := dinsert movA.similarities b (simValue movA.id b ud) })
          b
          { movB with
            similarities := dinsert movB.similarities movA.id (simValue movA.id b ud) }) := by
  unfold get_similarity Movie.compute_similarity
  rw [hA]
  have hB' : dlookup md b ≠ none := by rw [hB]; exact fun h => by cases h
  simp only [Option.isNone_iff_eq_none, hB', if_false, hc]
  rw [dlookup_dinsert]
  simp only [hab, if_false, hB]

theorem get_similarity_miss_self {md : MovieDict} {ud : UserDict} {a : Int} {movA : Movie}
    (hA : dlookup md a = some movA) (hc : dlookup movA.similarities a = none) :
    get_similarity a a md ud =
      .ok (simValue movA.id a ud,
        dinsert md a
          { movA with
            similarities := dinsert (dinsert movA.similarities a (simValue movA.id a ud))
                              movA.id (simValue movA.id a ud) }) := by
  unfold get_similarity Movie.compute_similarity
  rw [hA]
  have hA' : dlookup md a ≠ none := by rw [hA]; exact fun h => by cases h
  simp only [Option.isNone_iff_eq_none, hA', if_false, hc]
  rw [dlookup_dinsert]
  simp only [if_pos rfl, dinsert_dinsert]
  simp

/-! ### Store invariants and the frame relation -/

/-- A store whose movies sit under their own ids with all-empty similarity
caches — the state right after construction — satisfies the invariant. -/
theorem goodState_of_empty (md : MovieDict) (ud : UserDict)
    (h1 : ∀ p ∈ md, (p.2).id = p.1)
    (h2 : ∀ p ∈ md, (p.2).similarities = ([] : List (Int × ℚ))) :
    GoodState md ud := by
  refine ⟨fun a mov hl => h1 (a, mov) (dlookup_mem hl), ?_, ?_⟩
  · intro a b mov v hl hcv
    rw [h2 (a, mov) (dlookup_mem hl)] at hcv
    simp [dlookup] at hcv
  · intro a b mA mB ha hb
    rw [h2 (a, mA) (dlookup_mem ha), h2 (b, mB) (dlookup_mem hb)]
    simp [dlookup]

theorem movieFrame_refl (m : Movie) : MovieFrame m m :=
  ⟨rfl, rfl, rfl, fun _ _ h => h⟩

theorem mdFrame_refl (md : MovieDict) : MdFrame md md :=
  ⟨fun _ => Iff.rfl, fun _ m m' h h' => by
    rw [h] at h'; cases h'; exact movieFrame_refl m⟩

theorem mdFrame_trans {md1 md2 md3 : MovieDict} (h12 : MdFrame md1 md2)
    (h23 : MdFrame md2 md3) : MdFrame md1 md3 := by
  obtain ⟨k12, f12⟩ := h12
  obtain ⟨k23, f23⟩ := h23
  refine ⟨fun k => (k23 k).trans (k12 k), ?_⟩
  intro k m m' hm hm'
  have h2 : (dlookup md2 k).isSome := by rw [k12, hm]; rfl
  obtain ⟨mm, hmm⟩ := Option.isSome_iff_exists.mp h2
  obtain ⟨i1, t1, u1, s1⟩ := f12 k m mm hm hmm
  obtain ⟨i2, t2, u2, s2⟩ := f23 k mm m' hmm hm'
  exact ⟨i2.trans i1, t2.trans t1, u2.trans u1, fun j v hv => s2 j v (s1 j v hv)⟩

/-- Computing an uncached pair of distinct movies installs the symmetric
pair of cache entries, preserves the invariant, and respects the frame. -/
theorem get_similarity_write_ne {md : MovieDict} {ud : UserDict} {a b : Int}
    {movA movB : Movie}
    (hWF : WFids md) (hCC : CacheCorrect md ud) (hSym : CacheSym md)
    (hA : dlookup md a = some movA) (hB : dlookup md b = some movB)
    (hc : dlookup movA.similarities b = none) (hab : a ≠ b) :
    ∃ md', get_similarity a b md ud = .ok (simValue a b ud, md') ∧
      GoodState md' ud ∧ MdFrame md md' ∧
      ∃ mA' mB', dlookup md' a = some mA' ∧ dlookup md' b = some mB' ∧
        dlookup mA'.similarities b = some (simValue a b ud) ∧
        dlookup mB'.similarities a = some (simValue a b ud) := by
  have hidA : movA.id = a := hWF a movA hA
  have hcb : dlookup movB.similarities a = none := by
    have h := hSym a b movA movB hA hB
    rw [hc] at h
    simp only [Option.isSome_none, Bool.false_eq_true, false_iff] at h
    exact Option.not_isSome_iff_eq_none.mp h
  have heq := @get_similarity_miss_ne md ud a b movA movB hA hB hc hab
  rw [hidA] at heq
  set sv := simValue a b ud with hsv
  set self' : Movie := ⟨a, movA.title, movA.users, dinsert movA.similarities b sv⟩
    with hself
  set movB' : Movie := { movB with similarities := dinsert movB.similarities a sv }
    with hmovBd
  have hLk : ∀ k, dlookup (dinsert (dinsert md a self') b movB') k =
      if b = k then some movB' else if a = k then some self' else dlookup md k := by
    intro k
    rw [dlookup_dinsert, dlookup_dinsert]
  have hSa : ∀ j, dlookup self'.similarities j =
      if b = j then some sv else dlookup movA.similarities j := by
    intro j
    exact dlookup_dinsert movA.similarities b sv j
  have hSb : ∀ j, dlookup movB'.similarities j =
      if a = j then some sv else dlookup movB.similarities j := by
    intro j
    exact dlookup_dinsert movB.similarities a sv j
  have hWF' : WFids (dinsert (dinsert md a self') b movB') := by
    intro k mov h
    rw [hLk k] at h
    split_ifs at h with h1 h2
    · cases h; exact h1 ▸ hWF b movB hB
    · cases h; exact h2
    · exact hWF k mov h
  have hCC' : CacheCorrect (dinsert (dinsert md a self') b movB') ud := by
    intro x y mov v hx hv
    rw [hLk x] at hx
    split_ifs at hx with h1 h2
    · cases hx
      rw [hSb y] at hv
      split_ifs at hv with h3
      · cases hv
        rw [← h1, ← h3, hsv]
        exact simValue_comm a b ud
      · rw [← h1]
        exact hCC b y movB v hB hv
    · cases hx
      rw [hSa y] at hv
      split_ifs at hv with h3
      · cases hv
        rw [← h2, ← h3]
      · rw [← h2]
        exact hCC a y movA v hA hv
    · exact hCC x y mov v hx hv
  have hKey : ∀ k m, dlookup (dinsert (dinsert md a self') b movB') k = some m →
      ∀ j, ((dlookup m.similarities j).isSome = true ↔
        ((k = a ∧ j = b) ∨ (k = b ∧ j = a) ∨
          ∃ m0, dlookup md k = some m0 ∧ (dlookup m0.similarities j).isSome = true)) := by
    intro k m hk j
    rw [hLk k] at hk
    split_ifs at hk with h1 h2
    · cases hk
      rw [hSb j]
      split_ifs with h3
      · exact ⟨fun _ => Or.inr (Or.inl ⟨h1.symm, h3.symm⟩), fun _ => rfl⟩
      · constructor
        · intro hh
          exact Or.inr (Or.inr ⟨movB, by rw [← h1]; exact hB, hh⟩)
        · rintro (⟨hka, _⟩ | ⟨_, hja⟩ | ⟨m0, hm0, hs0⟩)
          · exact absurd (h1.trans hka).symm hab
          · exact absurd hja.symm h3
          · rw [← h1, hB] at hm0
            cases hm0
            exact hs0
    · cases hk
      rw [hSa j]
      split_ifs with h3
      · exact ⟨fun _ => Or.inl ⟨h2.symm, h3.symm⟩, fun _ => rfl⟩
      · constructor
        · intro hh
          exact Or.inr (Or.inr ⟨movA, by rw [← h2]; exact hA, hh⟩)
        · rintro (⟨_, hjb⟩ | ⟨hkb, _⟩ | ⟨m0, hm0, hs0⟩)
          · exact absurd hjb.symm h3
          · exact absurd (h2.trans hkb) hab
          · rw [← h2, hA] at hm0
            cases hm0
            exact hs0
    · constructor
      · intro hh
        exact Or.inr (Or.inr ⟨m, hk, hh⟩)
      · rintro (⟨hka, _⟩ | ⟨hkb, _⟩ | ⟨m0, hm0, hs0⟩)
        · exact absurd hka.symm h2
        · exact absurd hkb.symm h1
        · rw [hk] at hm0
          cases hm0
          exact hs0
  have hSym' : CacheSym (dinsert (dinsert md a self') b movB') := by
    intro x y mX mY hx hy
    have hxm : (dlookup md x).isSome := by
      rw [hLk x] at hx
      split_ifs at hx with h1 h2
      · rw [← h1, hB]; rfl
      · rw [← h2, hA]; rfl
      · rw [hx]; rfl
    have hym : (dlookup md y).isSome := by
      rw [hLk y] at hy
      split_ifs at hy with h1 h2
      · rw [← h1, hB]; rfl
      · rw [← h2, hA]; rfl
      · rw [hy]; rfl
    obtain ⟨mx0, hmx0⟩ := Option.isSome_iff_exists.mp hxm
    obtain ⟨my0, hmy0⟩ := Option.isSome_iff_exists.mp hym
    rw [hKey x mX hx y, hKey y mY hy x]
    constructor
    · rintro (⟨h1, h2⟩ | ⟨h1, h2⟩ | ⟨m0, hm0, hs0⟩)
      · exact Or.inr (Or.inl ⟨h2, h1⟩)
      · exact Or.inl ⟨h2, h1⟩
      · refine Or.inr (Or.inr ⟨my0, hmy0, ?_⟩)
        rw [hm0] at hmx0
        cases hmx0
        exact (hSym x y mx0 my0 hm0 hmy0).mp hs0
    · rintro (⟨h1, h2⟩ | ⟨h1, h2⟩ | ⟨m0, hm0, hs0⟩)
      · exact Or.inr (Or.inl ⟨h2, h1⟩)
      · exact Or.inl ⟨h2, h1⟩
      · refine Or.inr (Or.inr ⟨mx0, hmx0, ?_⟩)
        rw [hm0] at hmy0
        cases hmy0
        exact (hSym x y mx0 my0 hmx0 hm0).mpr hs0
  have hFr : MdFrame md (dinsert (dinsert md a self') b movB') := by
    refine ⟨?_, ?_⟩
    · intro k
      rw [hLk k]
      split_ifs with h1 h2
      · rw [← h1, hB]; simp
      · rw [← h2, hA]; simp
      · exact Iff.rfl
    · intro k m m' hm hm'
      rw [hLk k] at hm'
      split_ifs at hm' with h1 h2
      · cases hm'
        rw [← h1, hB] at hm
        cases hm
        refine ⟨rfl, rfl, rfl, ?_⟩
        intro j v hv
        rw [hSb j]
        split_ifs with h3
        · rw [← h3, hcb] at hv
          cases hv
        · exact hv
      · cases hm'
        rw [← h2, hA] at hm
        cases hm
        refine ⟨hidA.symm, rfl, rfl, ?_⟩
        intro j v hv
        rw [hSa j]
        split_ifs with h3
        · rw [← h3, hc] at hv
          cases hv
        · exact hv
      · rw [hm] at hm'
        cases hm'
        exact movieFrame_refl m
  refine ⟨dinsert (dinsert md a self') b movB', heq, ⟨hWF', hCC', hSym'⟩, hFr,
    self', movB', ?_, ?_, ?_, ?_⟩
  · rw [hLk a, if_neg (fun h => hab h.symm), if_pos rfl]
  · rw [hLk b, if_pos rfl]
  · rw [hSa b, if_pos rfl]
  · rw [hSb a, if_pos rfl]

/-- Computing an uncached self-pair `(a, a)` installs the cache entry and
preserves the invariant and the frame. -/
theorem get_similarity_write_self {md : MovieDict} {ud : UserDict} {a : Int} {movA : Movie}
    (hWF : WFids md) (hCC : CacheCorrect md ud) (hSym : CacheSym md)
    (hA : dlookup md a = some movA) (hc : dlookup movA.similarities a = none) :
    ∃ md', get_similarity a a md ud = .ok (simValue a a ud, md') ∧
      GoodState md' ud ∧ MdFrame md md' ∧
      ∃ mA' mB', dlookup md' a = some mA' ∧ dlookup md' a = some mB' ∧
        dlookup mA'.similarities a = some (simValue a a ud) ∧
        dlookup mB'.similarities a = some (simValue a a ud) := by
  have hidA : movA.id = a := hWF a movA hA
  have heq := @get_similarity_miss_self md ud a movA hA hc
  rw [hidA, dinsert_dinsert] at heq
  set sv := simValue a a ud with hsv
  set self' : Movie := ⟨a, movA.title, movA.users, dinsert movA.similarities a sv⟩
    with hself
  have hLk : ∀ k, dlookup (dinsert md a self') k =
      if a = k then some self' else dlookup md k := by
    intro k
    rw [dlookup_dinsert]
  have hSa : ∀ j, dlookup self'.similarities j =
      if a = j then some sv else dlookup movA.similarities j := by
    intro j
    exact dlookup_dinsert movA.similarities a sv j
  have hWF' : WFids (dinsert md a self') := by
    intro k mov h
    rw [hLk k] at h
    split_ifs at h with h1
    · cases h; exact h1
    · exact hWF k mov h
  have hCC' : CacheCorrect (dinsert md a self') ud := by
    intro x y mov v hx hv
    rw [hLk x] at hx
    split_ifs at hx with h1
    · cases hx
      rw [hSa y] at hv
      split_ifs at hv with h3
      · cases hv
        rw [← h1, ← h3]
      · rw [← h1]
        exact hCC a y movA v hA hv
    · exact hCC x y mov v hx hv
  have hKey : ∀ k m, dlookup (dinsert md a self') k = some m →
      ∀ j, ((dlookup m.similarities j).isSome = true ↔
        ((k = a ∧ j = a) ∨
          ∃ m0, dlookup md k = some m0 ∧ (dlookup m0.similarities j).isSome = true)) := by
    intro k m hk j
    rw [hLk k] at hk
    split_ifs at hk with h1
    · cases hk
      rw [hSa j]
      split_ifs with h3
      · exact ⟨fun _ => Or.inl ⟨h1.symm, h3.symm⟩, fun _ => rfl⟩
      · constructor
        · intro hh
          exact Or.inr ⟨movA, by rw [← h1]; exact hA, hh⟩
        · rintro (⟨_, hja⟩ | ⟨m0, hm0, hs0⟩)
          · exact absurd hja.symm h3
          · rw [← h1, hA] at hm0
            cases hm0
            exact hs0
    · constructor
      · intro hh
        exact Or.inr ⟨m, hk, hh⟩
      · rintro (⟨hka, _⟩ | ⟨m0, hm0, hs0⟩)
        · exact absurd hka.symm h1
        · rw [hk] at hm0
          cases hm0
          exact hs0
  have hSym' : CacheSym (dinsert md a self') := by
    intro x y mX mY hx hy
    have hxm : (dlookup md x).isSome := by
      rw [hLk x] at hx
      split_ifs at hx with h1
      · rw [← h1, hA]; rfl
      · rw [hx]; rfl
    have hym : (dlookup md y).isSome := by
      rw [hLk y] at hy
      split_ifs at hy with h1
      · rw [← h1, hA]; rfl
      · rw [hy]; rfl
    obtain ⟨mx0, hmx0⟩ := Option.isSome_iff_exists.mp hxm
    obtain ⟨my0, hmy0⟩ := Option.isSome_iff_exists.mp hym
    rw [hKey x mX hx y, hKey y mY hy x]
    constructor
    · rintro (⟨h1, h2⟩ | ⟨m0, hm0, hs0⟩)
      · exact Or.inl ⟨h2, h1⟩
      · refine Or.inr ⟨my0, hmy0, ?_⟩
        rw [hm0] at hmx0
        cases hmx0
        exact (hSym x y mx0 my0 hm0 hmy0).mp hs0
    · rintro (⟨h1, h2⟩ | ⟨m0, hm0, hs0⟩)
      · exact Or.inl ⟨h2, h1⟩
      · refine Or.inr ⟨mx0, hmx0, ?_⟩
        rw [hm0] at hmy0
        cases hmy0
        exact (hSym x y mx0 my0 hmx0 hm0).mpr hs0
  have hFr : MdFrame md (dinsert md a self') := by
    refine ⟨?_, ?_⟩
    · intro k
      rw [hLk k]
      split_ifs with h1
      · rw [← h1, hA]; simp
      · exact Iff.rfl
    · intro k m m' hm hm'
      rw [hLk k] at hm'
      split_ifs at hm' with h1
      · cases hm'
        rw [← h1, hA] at hm
        cases hm
        refine ⟨hidA.symm, rfl, rfl, ?_⟩
        intro j v hv
        rw [hSa j]
        split_ifs with h3
        · rw [← h3, hc] at hv
          cases hv
        · exact hv
      · rw [hm] at hm'
        cases hm'
        exact movieFrame_refl m
  refine ⟨dinsert md a self', heq, ⟨hWF', hCC', hSym'⟩, hFr,
    self', self', ?_, ?_, ?_, ?_⟩
  · rw [hLk a, if_pos rfl]
  · rw [hLk a, if_pos rfl]
  · rw [hSa a, if_pos rfl]
  · rw [hSa a, if_pos rfl]

/-- From a good state, `get_similarity` on two catalog movies succeeds with
the scan value, preserves the invariant and the frame, and leaves the value
cached on both movies. -/
theorem get_similarity_ok {md : MovieDict} {ud : UserDict} {a b : Int} {movA movB : Movie}
    (hG : GoodState md ud) (hA : dlookup md a = some movA) (hB : dlookup md b = some movB) :
    ∃ md', get_similarity a b md ud = .ok (simValue a b ud, md') ∧
      GoodState md' ud ∧ MdFrame md md' ∧
      ∃ mA' mB', dlookup md' a = some mA' ∧ dlookup md' b = some mB' ∧
        dlookup mA'.similarities b = some (simValue a b ud) ∧
        dlookup mB'.similarities a = some (simValue a b ud) := by
  obtain ⟨hWF, hCC, hSym⟩ := hG
  rcases hc : dlookup movA.similarities b with _ | s
  · by_cases hab : a = b
    · subst hab
      rw [hA] at hB
      cases hB
      exact get_similarity_write_self hWF hCC hSym hA hc
    · exact get_similarity_write_ne hWF hCC hSym hA hB hc hab
  · have hs : s = simValue a b ud := hCC a b movA s hA hc
    have hBs : (dlookup md b).isSome := by rw [hB]; rfl
    refine ⟨md, ?_, ⟨hWF, hCC, hSym⟩, mdFrame_refl md, ?_⟩
    · rw [get_similarity_hit hA hBs hc, hs]
    · have hBsym : (dlookup movB.similarities a).isSome := by
        rw [← hSym a b movA movB hA hB, hc]
        rfl
      obtain ⟨w, hw⟩ := Option.isSome_iff_exists.mp hBsym
      have hwv : w = simValue b a ud := hCC b a movB w hB hw
      refine ⟨movA, movB, hA, hB, ?_, ?_⟩
      · rw [hc, hs]
      · rw [hw, hwv, simValue_comm a b ud]

/-! ### Totality and error characterization of `get_similarity` -/

theorem get_similarity_err_inv {md : MovieDict} {ud : UserDict} {a b : Int} {e : Err}
    (h : get_similarity a b md ud = .error e) :
    (dlookup md a = none ∧ e = .keyError) ∨
      ((dlookup md a).isSome ∧ dlookup md b = none ∧
        e = .badInput "Movie id not in database") := by
  rcases hA : dlookup md a with _ | movA
  · rw [@get_similarity_keyError md ud a b hA] at h
    cases h
    exact Or.inl ⟨rfl, rfl⟩
  · rcases hB : dlookup md b with _ | movB
    · rw [@get_similarity_badInput md ud a b movA hA hB] at h
      cases h
      exact Or.inr ⟨rfl, rfl, rfl⟩
    · rcases hc : dlookup movA.similarities b with _ | s
      · by_cases hab : a = b
        · subst hab
          rw [hA] at hB
          cases hB
          rw [@get_similarity_miss_self md ud a movA hA hc] at h
          cases h
        · rw [@get_similarity_miss_ne md ud a b movA movB hA hB hc hab] at h
          cases h
      · rw [@get_similarity_hit md ud a b movA s hA (by rw [hB]; rfl) hc] at h
        cases h

theorem get_similarity_total {md : MovieDict} {ud : UserDict} {a b : Int}
    (hA : (dlookup md a).isSome) (hB : (dlookup md b).isSome) :
    ∃ v md', get_similarity a b md ud = .ok (v, md') := by
  obtain ⟨movA, hA'⟩ := Option.isSome_iff_exists.mp hA
  rcases hc : dlookup movA.similarities b with _ | s
  · by_cases hab : a = b
    · subst hab
      exact ⟨_, _, get_similarity_miss_self hA' hc⟩
    · obtain ⟨movB, hB'⟩ := Option.isSome_iff_exists.mp hB
      exact ⟨_, _, get_similarity_miss_ne hA' hB' hc hab⟩
  · exact ⟨s, md, get_similarity_hit hA' hB hc⟩

theorem get_similarity_mem_mono {md md' : MovieDict} {ud : UserDict} {a b : Int} {v : ℚ}
    (h : get_similarity a b md ud = .ok (v, md')) :
    ∀ k, (dlookup md k).isSome → (dlookup md' k).isSome := by
  rcases hA : dlookup md a with _ | movA
  · rw [@get_similarity_keyError md ud a b hA] at h
    cases h
  · rcases hB : dlookup md b with _ | movB
    · rw [@get_similarity_badInput md ud a b movA hA hB] at h
      cases h
    · rcases hc : dlookup movA.similarities b with _ | s
      · by_cases hab : a = b
        · subst hab
          rw [hA] at hB
          cases hB
          rw [@get_similarity_miss_self md ud a movA hA hc] at h
          cases h
          intro k hk
          rw [dlookup_dinsert]
          split_ifs with h1
          · rfl
          · exact hk
        · rw [@get_similarity_miss_ne md ud a b movA movB hA hB hc hab] at h
          cases h
          intro k hk
          rw [dlookup_dinsert, dlookup_dinsert]
          split_ifs with h1 h2
          · rfl
          · rfl
          · exact hk
      · rw [@get_similarity_hit md ud a b movA s hA (by rw [hB]; rfl) hc] at h
        cases h
        intro k hk
        exact hk

/-! ### The prediction loop -/

theorem predictLoop_no_badInput (mid : Int) (ud : UserDict) :
    ∀ (items : Ratings) (md : MovieDict) (t s : ℚ) (e : Err),
      (dlookup md mid).isSome →
      predictLoop mid items t s md ud = .error e → e = .keyError := by
  intro items
  induction items with
  | nil =>
    intro md t s e _ h
    simp [predictLoop] at h
  | cons p rest ih =>
    obtain ⟨key, r⟩ := p
    intro md t s e hM h
    rcases hg : get_similarity key mid md ud with e' | ⟨sim, md1⟩
    · simp only [predictLoop, hg] at h
      cases h
      rcases get_similarity_err_inv hg with ⟨_, he⟩ | ⟨_, hbnone, _⟩
      · exact he
      · rw [hbnone] at hM
        simp at hM
    · simp only [predictLoop, hg] at h
      exact ih md1 _ _ e (get_similarity_mem_mono hg mid hM) h

theorem predictLoop_spec (mid : Int) (ud : UserDict) :
    ∀ (items : Ratings) (md : MovieDict) (t s : ℚ), GoodState md ud →
      (dlookup md mid).isSome → (∀ q ∈ items, (dlookup md q.1).isSome) →
      ∃ md', predictLoop mid items t s md ud =
          .ok (t + (items.map fun q => simValue q.1 mid ud * q.2).sum,
               s + (items.map fun q => simValue q.1 mid ud).sum, md') ∧
        GoodState md' ud ∧ MdFrame md md' := by
  intro items
  induction items with
  | nil =>
    intro md t s hG _ _
    exact ⟨md, by simp [predictLoop], hG, mdFrame_refl md⟩
  | cons p rest ih =>
    obtain ⟨key, r⟩ := p
    intro md t s hG hM hK
    obtain ⟨movM, hmovM⟩ := Option.isSome_iff_exists.mp hM
    have hkey : (dlookup md key).isSome := hK (key, r) (List.mem_cons_self _ _)
    obtain ⟨movK, hmovK⟩ := Option.isSome_iff_exists.mp hkey
    obtain ⟨md1, heq, hG1, hFr1, _⟩ := get_similarity_ok hG hmovK hmovM
    have hstep : predictLoop mid ((key, r) :: rest) t s md ud =
        predictLoop mid rest (t + simValue key mid ud * r)
          (s + simValue key mid ud) md1 ud := by
      simp [predictLoop, heq]
    have hM1 : (dlookup md1 mid).isSome := by
      rw [hFr1.1 mid]
      exact hM
    have hK1 : ∀ q ∈ rest, (dlookup md1 q.1).isSome := by
      intro q hq
      rw [hFr1.1 q.1]
      exact hK q (List.mem_cons_of_mem _ hq)
    obtain ⟨md2, heq2, hG2, hFr2⟩ :=
      ih md1 (t + simValue key mid ud * r) (s + simValue key mid ud) hG1 hM1 hK1
    refine ⟨md2, ?_, hG2, mdFrame_trans hFr1 hFr2⟩
    rw [hstep, heq2]
    have ha1 : t + simValue key mid ud * r +
        (rest.map fun q => simValue q.1 mid ud * q.2).sum =
        t + (((key, r) :: rest).map fun q => simValue q.1 mid ud * q.2).sum := by
      simp only [List.map_cons, List.sum_cons]
      ring
    have ha2 : s + simValue key mid ud +
        (rest.map fun q => simValue q.1 mid ud).sum =
        s + (((key, r) :: rest).map fun q => simValue q.1 mid ud).sum := by
      simp only [List.map_cons, List.sum_cons]
      ring
    rw [ha1, ha2]

/-! ### `predict_rating`: branch equations and characterizations -/

theorem predict_rating_unknown {md : MovieDict} {ud : UserDict} {u m : Int}
    (h : dlookup ud u = none ∨ dlookup md m = none) :
    predict_rating u m md ud = .error (.badInput "User or movie id not in database") := by
  unfold predict_rating
  rcases h with h | h <;> simp [h]

theorem predict_rating_rated {md : MovieDict} {ud : UserDict} {u m : Int}
    {ratings : Ratings} {r : ℚ}
    (hU : dlookup ud u = some ratings) (hM : (dlookup md m).isSome)
    (hR : dlookup ratings m = some r) :
    predict_rating u m md ud = .ok (r, md) := by
  unfold predict_rating
  rw [Option.isSome_iff_ne_none] at hM
  simp [hU, Option.isNone_iff_eq_none, hM, hR]

theorem predict_rating_eq_loop {md : MovieDict} {ud : UserDict} {u m : Int}
    {ratings : Ratings}
    (hU : dlookup ud u = some ratings) (hM : (dlookup md m).isSome)
    (hR : dlookup ratings m = none) :
    predict_rating u m md ud =
      match predictLoop m ratings 0 0 md ud with
      | .error e => .error e
      | .ok (total, sumSim, md1) =>
        if sumSim ≠ 0 then .ok (total / sumSim, md1) else .ok (5 / 2, md1) := by
  unfold predict_rating
  rw [Option.isSome_iff_ne_none] at hM
  simp [hU, Option.isNone_iff_eq_none, hM, hR]

theorem predictLoop_total (mid : Int) (ud : UserDict) :
    ∀ (items : Ratings) (md : MovieDict) (t s : ℚ),
      (dlookup md mid).isSome → (∀ q ∈ items, (dlookup md q.1).isSome) →
      ∃ t' s' md', predictLoop mid items t s md ud = .ok (t', s', md') := by
  intro items
  induction items with
  | nil =>
    intro md t s _ _
    exact ⟨t, s, md, rfl⟩
  | cons p rest ih =>
    obtain ⟨key, r⟩ := p
    intro md t s hM hK
    have hkey : (dlookup md key).isSome := hK (key, r) (List.mem_cons_self _ _)
    obtain ⟨sim, md1, hg⟩ := @get_similarity_total md ud key mid hkey hM
    have hM1 : (dlookup md1 mid).isSome := get_similarity_mem_mono hg mid hM
    have hK1 : ∀ q ∈ rest, (dlookup md1 q.1).isSome := fun q hq =>
      get_similarity_mem_mono hg q.1 (hK q (List.mem_cons_of_mem _ hq))
    obtain ⟨t', s', md', hrest⟩ := ih md1 (t + sim * r) (s + sim) hM1 hK1
    refine ⟨t', s', md', ?_⟩
    simp [predictLoop, hg, hrest]

theorem predict_rating_badInput_iff (u m : Int) (md : MovieDict) (ud : UserDict) :
    (∃ msg, predict_rating u m md ud = .error (.badInput msg)) ↔
      (dlookup ud u = none ∨ dlookup md m = none) := by
  constructor
  · rintro ⟨msg, h⟩
    by_contra hcon
    push_neg at hcon
    obtain ⟨hu, hm⟩ := hcon
    obtain ⟨ratings, hU⟩ := Option.ne_none_iff_exists'.mp hu
    obtain ⟨movM, hM⟩ := Option.ne_none_iff_exists'.mp hm
    have hMs : (dlookup md m).isSome := by rw [hM]; rfl
    rcases hR : dlookup ratings m with _ | r
    · rw [predict_rating_eq_loop hU hMs hR] at h
      rcases hl : predictLoop m ratings 0 0 md ud with e | ⟨t, s, md1⟩
      · rw [hl] at h
        simp only [] at h
        cases h
        have := predictLoop_no_badInput m ud ratings md 0 0 _ hMs hl
        cases this
      · rw [hl] at h
        by_cases hs : s ≠ 0 <;> simp [hs] at h
    · rw [predict_rating_rated hU hMs hR] at h
      cases h
  · intro hcon
    exact ⟨_, predict_rating_unknown hcon⟩

theorem predict_rating_total {md : MovieDict} {ud : UserDict} {u m : Int}
    {ratings : Ratings}
    (hU : dlookup ud u = some ratings) (hM : (dlookup md m).isSome)
    (hK : ∀ q ∈ ratings, (dlookup md q.1).isSome) :
    ∃ v md', predict_rating u m md ud = .ok (v, md') := by
  rcases hR : dlookup ratings m with _ | r
  · obtain ⟨t', s', md', hl⟩ := predictLoop_total m ud ratings md 0 0 hM hK
    rw [predict_rating_eq_loop hU hM hR, hl]
    by_cases hs : s' ≠ 0 <;> simp [hs]
  · exact ⟨r, md, predict_rating_rated hU hM hR⟩

theorem predict_rating_spec {md : MovieDict} {ud : UserDict} {u m : Int}
    {ratings : Ratings} {movM : Movie}
    (hG : GoodState md ud) (hU : dlookup ud u = some ratings)
    (hM : dlookup md m = some movM) (hR : dlookup ratings m = none)
    (hK : ∀ q ∈ ratings, (dlookup md q.1).isSome) :
    ∃ md', predict_rating u m md ud =
        .ok ((if (ratings.map fun q => simValue q.1 m ud).sum ≠ 0 then
            (ratings.map fun q => simValue q.1 m ud * q.2).sum /
              (ratings.map fun q => simValue q.1 m ud).sum
          else 5 / 2), md') ∧
      GoodState md' ud ∧ MdFrame md md' := by
  have hMs : (dlookup md m).isSome := by rw [hM]; rfl
  obtain ⟨md', hloop, hG', hFr⟩ := predictLoop_spec m ud ratings md 0 0 hG hMs hK
  refine ⟨md', ?_, hG', hFr⟩
  rw [predict_rating_eq_loop hU hMs hR, hloop]
  simp only [zero_add]
  split_ifs <;> rfl

theorem get_similarity_ok_frame {md md' : MovieDict} {ud : UserDict} {a b : Int} {v : ℚ}
    (hG : GoodState md ud) (h : get_similarity a b md ud = .ok (v, md')) :
    v = simValue a b ud ∧ GoodState md' ud ∧ MdFrame md md' := by
  rcases hA : dlookup md a with _ | movA
  · rw [@get_similarity_keyError md ud a b hA] at h
    cases h
  · rcases hB : dlookup md b with _ | movB
    · rw [@get_similarity_badInput md ud a b movA hA hB] at h
      cases h
    · obtain ⟨mdX, heq, hGX, hFrX, _⟩ := get_similarity_ok hG hA hB
      rw [heq] at h
      cases h
      exact ⟨rfl, hGX, hFrX⟩

theorem predictLoop_ok_frame (mid : Int) (ud : UserDict) :
    ∀ (items : Ratings) (md : MovieDict) (t s t' s' : ℚ) (md' : MovieDict),
      GoodState md ud → predictLoop mid items t s md ud = .ok (t', s', md') →
      GoodState md' ud ∧ MdFrame md md' := by
  intro items
  induction items with
  | nil =>
    intro md t s t' s' md' hG h
    cases h
    exact ⟨hG, mdFrame_refl md⟩
  | cons p rest ih =>
    obtain ⟨key, r⟩ := p
    intro md t s t' s' md' hG h
    rcases hg : get_similarity key mid md ud with e | ⟨sim, md1⟩
    · simp only [predictLoop, hg] at h
      cases h
    · simp only [predictLoop, hg] at h
      obtain ⟨_, hG1, hFr1⟩ := get_similarity_ok_frame hG hg
      obtain ⟨hG2, hFr2⟩ := ih md1 _ _ t' s' md' hG1 h
      exact ⟨hG2, mdFrame_trans hFr1 hFr2⟩

theorem predict_rating_ok_frame {md md' : MovieDict} {ud : UserDict} {u m : Int} {v : ℚ}
    (hG : GoodState md ud) (h : predict_rating u m md ud = .ok (v, md')) :
    GoodState md' ud ∧ MdFrame md md' := by
  rcases hu : dlookup ud u with _ | ratings
  · rw [predict_rating_unknown (Or.inl hu)] at h
    cases h
  · rcases hm : dlookup md m with _ | movM
    · rw [predict_rating_unknown (Or.inr hm)] at h
      cases h
    · have hMs : (dlookup md m).isSome := by rw [hm]; rfl
      rcases hR : dlookup ratings m with _ | r
      · rw [predict_rating_eq_loop hu hMs hR] at h
        rcases hl : predictLoop m ratings 0 0 md ud with e | ⟨t, s, md1⟩
        · rw [hl] at h
          cases h
        · rw [hl] at h
          simp only [] at h
          obtain ⟨hG1, hFr1⟩ := predictLoop_ok_frame m ud ratings md 0 0 t s md1 hG hl
          split_ifs at h <;> cases h <;> exact ⟨hG1, hFr1⟩
      · rw [predict_rating_rated hu hMs hR] at h
        cases h
        exact ⟨hG, mdFrame_refl md⟩

/-! ### `predict_ratings` and the probe-record error policy -/

theorem firstBad_congr {md md' : MovieDict} (ud : UserDict)
    (hiso : ∀ k, (dlookup md' k).isSome ↔ (dlookup md k).isSome) :
    ∀ records, firstBad md' ud records = firstBad md ud records := by
  intro records
  induction records with
  | nil => rfl
  | cons p rest ih =>
    obtain ⟨u, m, r⟩ := p
    have hm : (dlookup md' m).isNone = (dlookup md m).isNone := by
      rcases hx : dlookup md m with _ | mv
      · have hns : ¬(dlookup md' m).isSome = true := by
          rw [hiso m, hx]
          simp
        rw [Option.not_isSome_iff_eq_none.mp hns]
      · have hs : (dlookup md' m).isSome = true := by
          rw [hiso m, hx]
          rfl
        obtain ⟨w, hw⟩ := Option.isSome_iff_exists.mp hs
        rw [hw]
        rfl
    simp only [firstBad, hm, ih]

theorem predict_ratings_run (ud : UserDict) :
    ∀ (records : List (Int × Int × ℚ)) (md : MovieDict),
      GoodState md ud → AllRatedKnown ud md →
      (∀ e, firstBad md ud records = some e →
        predict_ratings records md ud = .error e) ∧
      (firstBad md ud records = none →
        ∃ lst md', predict_ratings records md ud = .ok (lst, md') ∧
          GoodState md' ud ∧ MdFrame md md' ∧
          List.Forall₂ (fun rec t => t.1 = rec.1 ∧
            (∃ mov, dlookup md rec.2.1 = some mov ∧ t.2.1 = mov.title) ∧
            t.2.2.2 = rec.2.2) records lst) := by
  intro records
  induction records with
  | nil =>
    intro md hG hK
    constructor
    · intro e he
      simp [firstBad] at he
    · intro _
      exact ⟨[], md, rfl, hG, mdFrame_refl md, List.Forall₂.nil⟩
  | cons p rest ih =>
    obtain ⟨u, m, r⟩ := p
    intro md hG hK
    rcases hm : dlookup md m with _ | mov
    · constructor
      · intro e he
        simp only [firstBad, hm, Option.isNone_none, if_true] at he
        cases he
        simp only [predict_ratings, hm]
      · intro hnone
        simp [firstBad, hm] at hnone
    · have hms : (dlookup md m).isSome := by rw [hm]; rfl
      rcases hu : dlookup ud u with _ | ratings
      · have hpe : predict_rating u m md ud =
            .error (.badInput "User or movie id not in database") :=
          predict_rating_unknown (Or.inl hu)
        constructor
        · intro e he
          simp only [firstBad, hm, hu, Option.isNone_some, Option.isNone_none,
            Bool.false_eq_true, if_false, if_true] at he
          cases he
          simp only [predict_ratings, hm, hpe]
        · intro hnone
          simp [firstBad, hm, hu] at hnone
      · have hKu : ∀ q ∈ ratings, (dlookup md q.1).isSome :=
          fun q hq => hK (u, ratings) (dlookup_mem hu) q hq
        obtain ⟨v, md1, hp⟩ := predict_rating_total hu hms hKu
        obtain ⟨hG1, hFr1⟩ := predict_rating_ok_frame hG hp
        have hK1 : AllRatedKnown ud md1 := by
          intro p hp' q hq
          rw [hFr1.1 q.1]
          exact hK p hp' q hq
        obtain ⟨ihErr, ihOk⟩ := ih md1 hG1 hK1
        have hfb : firstBad md1 ud rest = firstBad md ud rest :=
          firstBad_congr ud hFr1.1 rest
        constructor
        · intro e he
          have he' : firstBad md ud rest = some e := by
            simpa [firstBad, hm, hu] using he
          simp only [predict_ratings, hm, hp]
          rw [ihErr e (by rw [hfb]; exact he')]
        · intro hnone
          have hn' : firstBad md ud rest = none := by
            simpa [firstBad, hm, hu] using hnone
          obtain ⟨lst, md2, hrun, hG2, hFr2, hfa⟩ := ihOk (by rw [hfb]; exact hn')
          refine ⟨(u, mov.title, v, r) :: lst, md2, ?_, hG2,
            mdFrame_trans hFr1 hFr2, ?_⟩
          · simp only [predict_ratings, hm, hp, hrun]
          · refine List.Forall₂.cons ⟨rfl, ⟨mov, hm, rfl⟩, rfl⟩ ?_
            apply List.Forall₂.imp ?_ hfa
            rintro rec t ⟨h1, ⟨mov', hmov', ht⟩, h3⟩
            have hsome : (dlookup md rec.2.1).isSome := by
              rw [← hFr1.1 rec.2.1, hmov']
              rfl
            obtain ⟨mov0, hmov0⟩ := Option.isSome_iff_exists.mp hsome
            refine ⟨h1, ⟨mov0, hmov0, ?_⟩, h3⟩
            obtain ⟨_, htitle, _, _⟩ := hFr1.2 rec.2.1 mov0 mov' hmov0 hmov'
            rw [ht, htitle]

theorem predict_ratings_ok_frame (ud : UserDict) :
    ∀ (records : List (Int × Int × ℚ)) (md : MovieDict)
      (lst : List (Int × String × ℚ × ℚ)) (md' : MovieDict),
      GoodState md ud → predict_ratings records md ud = .ok (lst, md') →
      GoodState md' ud ∧ MdFrame md md' := by
  intro records
  induction records with
  | nil =>
    intro md lst md' hG h
    cases h
    exact ⟨hG, mdFrame_refl md⟩
  | cons p rest ih =>
    obtain ⟨u, m, r⟩ := p
    intro md lst md' hG h
    rcases hm : dlookup md m with _ | mov
    · simp only [predict_ratings, hm] at h
      cases h
    · rcases hp : predict_rating u m md ud with e | ⟨v, md1⟩
      · simp only [predict_ratings, hm, hp] at h
        cases h
      · rcases hr : predict_ratings rest md1 ud with e | ⟨lst1, md2⟩
        · simp only [predict_ratings, hm, hp, hr] at h
          cases h
        · simp only [predict_ratings, hm, hp, hr] at h
          cases h
          obtain ⟨hG1, hFr1⟩ := predict_rating_ok_frame hG hp
          obtain ⟨hG2, hFr2⟩ := ih md1 _ _ hG1 hr
          exact ⟨hG2, mdFrame_trans hFr1 hFr2⟩

/-! ### Construction -/

theorem mem_dinsert {α : Type} {x : Int × α} :
    ∀ {l : List (Int × α)} {k : Int} {v : α}, x ∈ dinsert l k v → x = (k, v) ∨ x ∈ l := by
  intro l
  induction l with
  | nil =>
    intro k v h
    simp [dinsert] at h
    exact Or.inl h
  | cons p rest ih =>
    intro k v h
    obtain ⟨pk, pv⟩ := p
    by_cases hpk : pk = k
    · simp only [dinsert, hpk, if_true, reduceIte] at h
      rcases List.mem_cons.mp h with h | h
      · exact Or.inl h
      · exact Or.inr (List.mem_cons_of_mem _ h)
    · simp only [dinsert, hpk, if_false, reduceIte] at h
      rcases List.mem_cons.mp h with h | h
      · exact Or.inr (h ▸ List.mem_cons_self _ _)
      · rcases ih h with h' | h'
        · exact Or.inl h'
        · exact Or.inr (List.mem_cons_of_mem _ h')

theorem loadMovies_foldl_isSome (catalog : List (Int × String)) :
    ∀ (md0 : MovieDict) (k : Int),
      (dlookup (catalog.foldl (fun md p => dinsert md p.1 ⟨p.1, p.2, [], []⟩) md0) k).isSome
        = true ↔
      ((∃ p ∈ catalog, p.1 = k) ∨ (dlookup md0 k).isSome = true) := by
  induction catalog with
  | nil =>
    intro md0 k
    simp
  | cons p rest ih =>
    intro md0 k
    simp only [List.foldl_cons]
    rw [ih]
    have hstep : (dlookup (dinsert md0 p.1 ⟨p.1, p.2, [], []⟩) k).isSome = true ↔
        (p.1 = k ∨ (dlookup md0 k).isSome = true) := by
      rw [dlookup_dinsert]
      split_ifs with h <;> simp [h]
    rw [hstep]
    simp only [List.mem_cons]
    constructor
    · rintro (⟨q, hq, hqk⟩ | (h | h))
      · exact Or.inl ⟨q, Or.inr hq, hqk⟩
      · exact Or.inl ⟨p, Or.inl rfl, h⟩
      · exact Or.inr h
    · rintro (⟨q, hq | hq, hqk⟩ | h)
      · exact Or.inr (Or.inl (hq ▸ hqk))
      · exact Or.inl ⟨q, hq, hqk⟩
      · exact Or.inr (Or.inr h)

theorem loadMovies_isSome (catalog : List (Int × String)) (k : Int) :
    (dlookup (loadMovies catalog) k).isSome = true ↔ ∃ p ∈ catalog, p.1 = k := by
  unfold loadMovies
  rw [loadMovies_foldl_isSome]
  simp [dlookup]

theorem loadRatings_error_kind :
    ∀ (records : List (Int × Int × ℚ)) (ud : UserDict) (md : MovieDict) (e : Err),
      loadRatings records ud md = .error e → e = .keyError := by
  intro records
  induction records with
  | nil =>
    intro ud md e h
    cases h
  | cons p rest ih =>
    obtain ⟨cu, m, r⟩ := p
    intro ud md e h
    rcases hm : dlookup md m with _ | mov
    · simp only [loadRatings, hm] at h
      cases h
      rfl
    · simp only [loadRatings, hm] at h
      exact ih _ _ e h

theorem loadRatings_ok_known :
    ∀ (records : List (Int × Int × ℚ)) (ud : UserDict) (md : MovieDict)
      (ud' : UserDict) (md' : MovieDict),
      loadRatings records ud md = .ok (ud', md') →
      ∀ rec ∈ records, (dlookup md rec.2.1).isSome = true := by
  intro records
  induction records with
  | nil =>
    intro ud md ud' md' _ rec hrec
    simp at hrec
  | cons p rest ih =>
    obtain ⟨cu, m, r⟩ := p
    intro ud md ud' md' h rec hrec
    rcases hm : dlookup md m with _ | mov
    · simp only [loadRatings, hm] at h
      cases h
    · rcases List.mem_cons.mp hrec with hrec' | hrec'
      · subst hrec'
        rw [hm]
        rfl
      · simp only [loadRatings, hm] at h
        have hrest := ih _ _ _ _ h rec hrec'
        rw [dlookup_dinsert] at hrest
        split_ifs at hrest with hmk
        · rw [← hmk, hm]
          rfl
        · exact hrest

/-- A training rating whose movie id is absent from the catalog makes
construction fail with a raw `KeyError` — not with `BadInputError` — and
no engine object is produced. -/
theorem mkEngine_missing_movie {catalog : List (Int × String)}
    {training : List (Int × Int × ℚ)}
    (hBad : ∃ rec ∈ training, ∀ p ∈ catalog, p.1 ≠ rec.2.1) :
    mkEngine catalog training = .error .keyError := by
  rcases hload : loadRatings training [] (loadMovies catalog) with e | ⟨ud, md⟩
  · have he : e = .keyError := loadRatings_error_kind training [] (loadMovies catalog) e hload
    subst he
    simp [mkEngine, hload]
  · exfalso
    obtain ⟨rec, hrec, hnot⟩ := hBad
    have hsome := loadRatings_ok_known training [] (loadMovies catalog) ud md hload rec hrec
    obtain ⟨p, hp, hpk⟩ := (loadMovies_isSome catalog rec.2.1).mp hsome
    exact hnot p hp hpk

theorem loadMovies_mem_inv (catalog : List (Int × String)) :
    ∀ p ∈ loadMovies catalog,
      (p.2).id = p.1 ∧ (p.2).similarities = ([] : List (Int × ℚ)) := by
  have key : ∀ (cat : List (Int × String)) (md0 : MovieDict),
      (∀ p ∈ md0, (p.2).id = p.1 ∧ (p.2).similarities = ([] : List (Int × ℚ))) →
      ∀ p ∈ cat.foldl (fun md q => dinsert md q.1 ⟨q.1, q.2, [], []⟩) md0,
        (p.2).id = p.1 ∧ (p.2).similarities = ([] : List (Int × ℚ)) := by
    intro cat
    induction cat with
    | nil =>
      intro md0 h0 p hp
      exact h0 p hp
    | cons q rest ih =>
      intro md0 h0 p hp
      refine ih _ ?_ p hp
      intro p' hp'
      rcases mem_dinsert hp' with h' | h'
      · rw [h']
        exact ⟨rfl, rfl⟩
      · exact h0 p' h'
  intro p hp
  exact key catalog [] (by simp) p hp

theorem loadRatings_inv :
    ∀ (records : List (Int × Int × ℚ)) (ud : UserDict) (md : MovieDict)
      (ud' : UserDict) (md' : MovieDict),
      (∀ p ∈ md, (p.2).id = p.1) →
      (∀ p ∈ md, (p.2).similarities = ([] : List (Int × ℚ))) →
      AllRatedKnown ud md →
      loadRatings records ud md = .ok (ud', md') →
      (∀ p ∈ md', (p.2).id = p.1) ∧
      (∀ p ∈ md', (p.2).similarities = ([] : List (Int × ℚ))) ∧
      AllRatedKnown ud' md' := by
  intro records
  induction records with
  | nil =>
    intro ud md ud' md' h1 h2 h3 h
    cases h
    exact ⟨h1, h2, h3⟩
  | cons p rest ih =>
    obtain ⟨cu, m, r⟩ := p
    intro ud md ud' md' h1 h2 h3 h
    rcases hm : dlookup md m with _ | mov
    · simp only [loadRatings, hm] at h
      cases h
    · simp only [loadRatings, hm] at h
      have hmono : ∀ k, (dlookup md k).isSome = true →
          (dlookup (dinsert md m { mov with users := mov.users ++ [cu] }) k).isSome
            = true := by
        intro k hk
        rw [dlookup_dinsert]
        split_ifs with hmk
        · rfl
        · exact hk
      refine ih _ _ ud' md' ?_ ?_ ?_ h
      · intro p hp
        rcases mem_dinsert hp with h' | h'
        · rw [h']
          exact h1 (m, mov) (dlookup_mem hm)
        · exact h1 p h'
      · intro p hp
        rcases mem_dinsert hp with h' | h'
        · rw [h']
          exact h2 (m, mov) (dlookup_mem hm)
        · exact h2 p h'
      · intro p hp q hq
        rcases mem_dinsert hp with h' | h'
        · rw [h'] at hq
          simp only [] at hq
          rcases mem_dinsert hq with h'' | h''
          · rw [h'']
            rw [dlookup_dinsert]
            simp
          · rcases hcu : dlookup (if (dlookup ud cu).isNone then dinsert ud cu [] else ud)
                cu with _ | rts
            · rw [hcu] at h''
              simp at h''
            · rw [hcu] at h''
              simp only [Option.getD_some] at h''
              have hmem : (cu, rts) ∈
                  (if (dlookup ud cu).isNone then dinsert ud cu [] else ud) :=
                dlookup_mem hcu
              rcases hud0 : dlookup ud cu with _ | rts0
              · rw [hud0] at hmem
                simp only [Option.isNone_none, if_true, reduceIte] at hmem
                rcases mem_dinsert hmem with h3' | h3'
                · cases h3'
                  simp at h''
                · exact hmono q.1 (h3 (cu, rts) h3' q h'')
              · rw [hud0] at hmem
                simp only [Option.isNone_some, Bool.false_eq_true, if_false,
                  reduceIte] at hmem
                exact hmono q.1 (h3 (cu, rts) hmem q h'')
        · rcases hud0 : dlookup ud cu with _ | rts0
          · rw [hud0] at h'
            simp only [Option.isNone_none, if_true, reduceIte] at h'
            rcases mem_dinsert h' with h3' | h3'
            · rw [h3'] at hq
              simp at hq
            · exact hmono q.1 (h3 p h3' q hq)
          · rw [hud0] at h'
            simp only [Option.isNone_some, Bool.false_eq_true, if_false,
              reduceIte] at h'
            exact hmono q.1 (h3 p h' q hq)

/-- A successfully constructed engine is in a good state, with consistent
indices: every rated movie is in the catalog, every movie sits under its
own id, and all similarity caches start empty. -/
theorem mkEngine_good {catalog : List (Int × String)}
    {training : List (Int × Int × ℚ)} {eng : Movie_Recommendations}
    (h : mkEngine catalog training = .ok eng) :
    GoodState eng.movie_dict eng.user_dict ∧
      AllRatedKnown eng.user_dict eng.movie_dict := by
  rcases hload : loadRatings training [] (loadMovies catalog) with e | ⟨ud, md⟩
  · simp [mkEngine, hload] at h
  · simp only [mkEngine, hload] at h
    cases h
    obtain ⟨h1, h2, h3⟩ := loadRatings_inv training [] (loadMovies catalog) ud md
      (fun p hp => (loadMovies_mem_inv catalog p hp).1)
      (fun p hp => (loadMovies_mem_inv catalog p hp).2)
      (by intro p hp; simp at hp)
      hload
    exact ⟨goodState_of_empty md ud h1 h2, h3⟩

/-! ### Bounds and self-similarity -/

theorem get_similarity_badInput_iff {md : MovieDict} {ud : UserDict} {a b : Int}
    (hA : (dlookup md a).isSome) :
    (∃ msg, get_similarity a b md ud = .error (.badInput msg)) ↔
      dlookup md b = none := by
  constructor
  · rintro ⟨msg, h⟩
    rcases get_similarity_err_inv h with ⟨hnone, _⟩ | ⟨_, hbnone, _⟩
    · rw [hnone] at hA
      simp at hA
    · exact hbnone
  · intro hb
    obtain ⟨movA, hA'⟩ := Option.isSome_iff_exists.mp hA
    exact ⟨_, get_similarity_badInput hA' hb⟩

theorem sum_le_card_mul (B : ℚ) :
    ∀ (l : List ℚ), (∀ x ∈ l, 0 ≤ x ∧ x ≤ B) →
      0 ≤ l.sum ∧ l.sum ≤ (l.length : ℚ) * B := by
  intro l
  induction l with
  | nil => intro _; simp
  | cons x rest ih =>
    intro h
    obtain ⟨hx0, hxB⟩ := h x (List.mem_cons_self _ _)
    obtain ⟨hs0, hsB⟩ := ih fun y hy => h y (List.mem_cons_of_mem _ hy)
    constructor
    · simpa using add_nonneg hx0 hs0
    · simp only [List.sum_cons, List.length_cons]
      push_cast
      nlinarith

theorem coRaters_diff_bounds {ud : UserDict} {a b : Int}
    (hR : ∀ p ∈ ud, ∀ q ∈ p.2, (1 : ℚ)/2 ≤ q.2 ∧ q.2 ≤ 5) :
    ∀ x ∈ (coRaters ud a b).map (simDiff a b), 0 ≤ x ∧ x ≤ 9/2 := by
  intro x hx
  obtain ⟨p, hp, hpx⟩ := List.mem_map.mp hx
  obtain ⟨hpud, hcond⟩ := List.mem_filter.mp hp
  simp only [Bool.and_eq_true] at hcond
  obtain ⟨ha, hb⟩ := hcond
  obtain ⟨ra, hra⟩ := Option.isSome_iff_exists.mp ha
  obtain ⟨rb, hrb⟩ := Option.isSome_iff_exists.mp hb
  obtain ⟨hra1, hra2⟩ := hR p hpud (a, ra) (dlookup_mem hra)
  obtain ⟨hrb1, hrb2⟩ := hR p hpud (b, rb) (dlookup_mem hrb)
  rw [← hpx]
  unfold simDiff
  rw [hra, hrb]
  simp only [Option.getD_some]
  constructor
  · exact abs_nonneg _
  · rw [abs_le]
    constructor <;> linarith

theorem simValue_self (m : Int) (ud : UserDict) :
    simValue m m ud =
      if ud.any (fun p => (dlookup p.2 m).isSome) then (1 : ℚ) else 0 := by
  rw [simValue_eq_spec]
  unfold specSimilarity
  have hfeq : coRaters ud m m = ud.filter (fun p => (dlookup p.2 m).isSome) := by
    unfold coRaters
    congr 1
    funext p
    exact Bool.and_self _
  have hzero : ((coRaters ud m m).map (simDiff m m)).sum = 0 := by
    apply List.sum_eq_zero
    intro x hx
    obtain ⟨p, _, hpx⟩ := List.mem_map.mp hx
    rw [← hpx]
    unfold simDiff
    simp
  by_cases hC : coRaters ud m m = []
  · have hany : ud.any (fun p => (dlookup p.2 m).isSome) = false := by
      rw [List.any_eq_false]
      intro p hpud
      have := List.filter_eq_nil.mp (hfeq ▸ hC) p hpud
      simpa using this
    simp [hC, hany]
  · have hany : ud.any (fun p => (dlookup p.2 m).isSome) = true := by
      obtain ⟨p, hp⟩ := List.exists_mem_of_ne_nil _ hC
      obtain ⟨hpud, hcond⟩ := List.mem_filter.mp (hfeq ▸ hp)
      rw [List.any_eq_true]
      exact ⟨p, hpud, hcond⟩
    simp [hC, hany, hzero]

/-! ### The claims -/

/-- C1: if the user already rated the movie, `predict_rating` returns that
rating unchanged, whatever the rest of the store and the caches hold. -/
theorem C1_ground_truth_precedence {md : MovieDict} {ud : UserDict} {u m : Int}
    {ratings : Ratings} {r : ℚ}
    (hU : dlookup ud u = some ratings) (hM : (dlookup md m).isSome)
    (hR : dlookup ratings m = some r) :
    predict_rating u m md ud = .ok (r, md) :=
  predict_rating_rated hU hM hR

theorem C1_witness :
    dlookup exUd 1 = some [(1, 5), (2, 3)] ∧ (dlookup exMd 2).isSome = true ∧
    dlookup [(1, (5 : ℚ)), (2, 3)] 2 = some 3 ∧
    predict_rating 1 2 exMd exUd = .ok (3, exMd) :=
  ⟨rfl, rfl, rfl, C1_ground_truth_precedence rfl rfl rfl⟩

/-- C2: `predict_rating` fails with `BadInputError` exactly when the user or
the movie is unknown, and `get_similarity` (with a valid `self`) exactly when
`other_movie_id` is unknown; in every other case (with the store's indices
consistent) both return a value. -/
theorem C2_unknown_entity (md : MovieDict) (ud : UserDict) :
    (∀ u m : Int, ((∃ msg, predict_rating u m md ud = .error (.badInput msg)) ↔
      (dlookup ud u = none ∨ dlookup md m = none))) ∧
    (∀ a b : Int, (dlookup md a).isSome →
      ((∃ msg, get_similarity a b md ud = .error (.badInput msg)) ↔
        dlookup md b = none)) ∧
    (∀ (u m : Int) (ratings : Ratings), dlookup ud u = some ratings →
      (dlookup md m).isSome → (∀ q ∈ ratings, (dlookup md q.1).isSome) →
      ∃ v md', predict_rating u m md ud = .ok (v, md')) ∧
    (∀ a b : Int, (dlookup md a).isSome → (dlookup md b).isSome →
      ∃ v md', get_similarity a b md ud = .ok (v, md')) :=
  ⟨fun u m => predict_rating_badInput_iff u m md ud,
   fun _ _ hA => get_similarity_badInput_iff hA,
   fun _ _ _ hU hM hK => predict_rating_total hU hM hK,
   fun _ _ hA hB => get_similarity_total hA hB⟩

theorem C2_witness :
    (∃ msg, predict_rating 9 1 exMd exUd = .error (.badInput msg)) ∧
    (∃ msg, get_similarity 1 9 exMd exUd = .error (.badInput msg)) ∧
    (∃ v md', predict_rating 3 2 exMd exUd = .ok (v, md')) ∧
    (∃ v md', get_similarity 1 2 exMd exUd = .ok (v, md')) := by
  obtain ⟨h1, h2, h3, h4⟩ := C2_unknown_entity exMd exUd
  exact ⟨(h1 9 1).mpr (Or.inl rfl),
         (h2 1 9 rfl).mpr rfl,
         h3 3 2 [(1, 4)] rfl rfl (by decide),
         h4 1 2 rfl rfl⟩

/-- C3: `compute_similarity` returns 0 when no user rated both movies, and
otherwise `1 - (mean absolute rating difference over co-raters) / 4.5`. -/
theorem C3_similarity_formula (self : Movie) (other_movie_id : Int)
    (movie_dict : MovieDict) (user_dict : UserDict) :
    self.compute_similarity other_movie_id movie_dict user_dict =
      specSimilarity self.id other_movie_id user_dict := by
  unfold Movie.compute_similarity
  exact simValue_eq_spec self.id other_movie_id user_dict

/-- C4: similarity is symmetric; after either direction is computed the
value is cached on both movies, and later calls in either direction return
the cached value without touching the store again. -/
theorem C4_symmetry_memoization {md : MovieDict} {ud : UserDict} {a b : Int}
    {movA movB : Movie}
    (hG : GoodState md ud) (hA : dlookup md a = some movA)
    (hB : dlookup md b = some movB) :
    ∃ v md₁ md₂,
      get_similarity a b md ud = .ok (v, md₁) ∧
      get_similarity b a md ud = .ok (v, md₂) ∧
      (∃ mA mB, dlookup md₁ a = some mA ∧ dlookup md₁ b = some mB ∧
        dlookup mA.similarities b = some v ∧ dlookup mB.similarities a = some v) ∧
      get_similarity a b md₁ ud = .ok (v, md₁) ∧
      get_similarity b a md₁ ud = .ok (v, md₁) := by
  obtain ⟨md₁, heq1, _, _, mA, mB, hmA, hmB, hcA, hcB⟩ := get_similarity_ok hG hA hB
  obtain ⟨md₂, heq2, _⟩ := get_similarity_ok hG hB hA
  refine ⟨simValue a b ud, md₁, md₂, heq1, ?_, ⟨mA, mB, hmA, hmB, hcA, hcB⟩, ?_, ?_⟩
  · rw [heq2, simValue_comm a b ud]
  · exact get_similarity_hit hmA (by rw [hmB]; rfl) hcA
  · exact get_similarity_hit hmB (by rw [hmA]; rfl) hcB

theorem C4_witness :
    GoodState exMd exUd ∧ dlookup exMd 1 = some exMv1 ∧ dlookup exMd 2 = some exMv2 ∧
    ∃ v md₁ md₂,
      get_similarity 1 2 exMd exUd = .ok (v, md₁) ∧
      get_similarity 2 1 exMd exUd = .ok (v, md₂) ∧
      (∃ mA mB, dlookup md₁ 1 = some mA ∧ dlookup md₁ 2 = some mB ∧
        dlookup mA.similarities 2 = some v ∧ dlookup mB.similarities 1 = some v) ∧
      get_similarity 1 2 md₁ exUd = .ok (v, md₁) ∧
      get_similarity 2 1 md₁ exUd = .ok (v, md₁) := by
  have hG : GoodState exMd exUd := goodState_of_empty _ _ (by decide) (by decide)
  exact ⟨hG, rfl, rfl, C4_symmetry_memoization hG rfl rfl⟩

/-- C5: for a known user and a catalog movie the user has not rated, the
prediction is the similarity-weighted average of the user's ratings when
the weights do not sum to zero, and exactly `2.5 = 5/2` otherwise
(including a user with no ratings); no exception is raised. -/
theorem C5_weighted_average {md : MovieDict} {ud : UserDict} {u m : Int}
    {ratings : Ratings} {movM : Movie}
    (hG : GoodState md ud) (hU : dlookup ud u = some ratings)
    (hM : dlookup md m = some movM) (hR : dlookup ratings m = none)
    (hK : ∀ q ∈ ratings, (dlookup md q.1).isSome) :
    ∃ md', predict_rating u m md ud =
      .ok ((if (ratings.map fun q => simValue q.1 m ud).sum ≠ 0 then
          (ratings.map fun q => simValue q.1 m ud * q.2).sum /
            (ratings.map fun q => simValue q.1 m ud).sum
        else 5 / 2), md') := by
  obtain ⟨md', h, _, _⟩ := predict_rating_spec hG hU hM hR hK
  exact ⟨md', h⟩

theorem C5_witness :
    GoodState exMd exUd ∧ dlookup exUd 3 = some [(1, 4)] ∧
    dlookup exMd 2 = some exMv2 ∧ dlookup [(1, (4 : ℚ))] 2 = none ∧
    ∃ md', predict_rating 3 2 exMd exUd =
      .ok ((if ([((1 : Int), (4 : ℚ))].map fun q => simValue q.1 2 exUd).sum ≠ 0 then
          ([((1 : Int), (4 : ℚ))].map fun q => simValue q.1 2 exUd * q.2).sum /
            ([((1 : Int), (4 : ℚ))].map fun q => simValue q.1 2 exUd).sum
        else 5 / 2), md') := by
  have hG : GoodState exMd exUd := goodState_of_empty _ _ (by decide) (by decide)
  exact ⟨hG, rfl, rfl, rfl, C5_weighted_average hG rfl rfl rfl (by decide)⟩

/-- C6 (amended): each probe record yields a tuple carrying its user id,
the movie's title, the predicted rating and the actual rating; a record
with an unknown entity makes the whole batch fail rather than being
skipped — with `BadInputError` when the user is unknown but the movie is
known, and with a raw `KeyError` (from `self.movie_dict[mov_id]`,
evaluated before `predict_rating`) when the movie is unknown. -/
theorem C6_batch_prediction {md : MovieDict} {ud : UserDict}
    (hG : GoodState md ud) (hK : AllRatedKnown ud md)
    (records : List (Int × Int × ℚ)) :
    (∀ e, firstBad md ud records = some e →
      predict_ratings records md ud = .error e) ∧
    (firstBad md ud records = none →
      ∃ lst md', predict_ratings records md ud = .ok (lst, md') ∧
        List.Forall₂ (fun rec t => t.1 = rec.1 ∧
          (∃ mov, dlookup md rec.2.1 = some mov ∧ t.2.1 = mov.title) ∧
          t.2.2.2 = rec.2.2) records lst) := by
  obtain ⟨h1, h2⟩ := predict_ratings_run ud records md hG hK
  refine ⟨h1, fun hn => ?_⟩
  obtain ⟨lst, md', hrun, _, _, hfa⟩ := h2 hn
  exact ⟨lst, md', hrun, hfa⟩

theorem C6_witness :
    GoodState exMd exUd ∧ AllRatedKnown exUd exMd ∧
    firstBad exMd exUd [(3, 2, 5)] = none ∧
    ∃ lst md', predict_ratings [(3, 2, 5)] exMd exUd = .ok (lst, md') ∧
      List.Forall₂ (fun rec t => t.1 = rec.1 ∧
        (∃ mov, dlookup exMd rec.2.1 = some mov ∧ t.2.1 = mov.title) ∧
        t.2.2.2 = rec.2.2) [((3 : Int), (2 : Int), (5 : ℚ))] lst := by
  have hG : GoodState exMd exUd := goodState_of_empty _ _ (by decide) (by decide)
  have hK : AllRatedKnown exUd exMd := by
    unfold AllRatedKnown
    decide
  have hn : firstBad exMd exUd [(3, 2, 5)] = none := rfl
  obtain ⟨lst, md', hrun, hfa⟩ := (C6_batch_prediction hG hK [(3, 2, 5)]).2 hn
  exact ⟨hG, hK, hn, lst, md', hrun, hfa⟩

/-- C6 counterexample: a probe record with an unknown movie makes
`predict_ratings` fail with the raw `KeyError`, not with the
`UnknownEntity`/`BadInputError` error kind the claim requires. -/
theorem C6_counterexample :
    predict_ratings [(1, 9, 3)] exMd exUd = .error .keyError ∧
    ∀ msg, Err.keyError ≠ Err.badInput msg := by
  refine ⟨rfl, ?_⟩
  intro msg h
  cases h

/-- C7 (amended): with every rating in `[0.5, 5.0]`, the similarity lies in
`[-1/9, 1] = [1 - 5/4.5, 1]`, and equals exactly `1` when the co-rater set
is nonempty and every co-rater gave identical ratings to both movies.
(When no user co-rated the pair the code returns `0`, not `1`.) -/
theorem C7_similarity_bounds {ud : UserDict} (a b : Int)
    (hR : ∀ p ∈ ud, ∀ q ∈ p.2, (1 : ℚ)/2 ≤ q.2 ∧ q.2 ≤ 5) :
    (-(1/9) ≤ simValue a b ud ∧ simValue a b ud ≤ 1) ∧
    (coRaters ud a b ≠ [] →
      (∀ p ∈ coRaters ud a b, dlookup p.2 a = dlookup p.2 b) →
      simValue a b ud = 1) := by
  have hspec : specSimilarity a b ud =
      if coRaters ud a b = [] then (0 : ℚ)
      else 1 - (((coRaters ud a b).map (simDiff a b)).sum /
        ((coRaters ud a b).length : ℚ)) / (9 / 2) := rfl
  rw [simValue_eq_spec, hspec]
  by_cases hC : coRaters ud a b = []
  · refine ⟨?_, fun hne _ => absurd hC hne⟩
    rw [if_pos hC]
    norm_num
  · have hlenpos : 0 < ((coRaters ud a b).length : ℚ) := by
      have := List.length_pos.mpr hC
      exact_mod_cast this
    obtain ⟨hs0, hsB⟩ := sum_le_card_mul (9/2) _ (coRaters_diff_bounds hR)
    rw [List.length_map] at hsB
    constructor
    · have hfrac0 : 0 ≤ (((coRaters ud a b).map (simDiff a b)).sum /
          ((coRaters ud a b).length : ℚ)) / (9 / 2) :=
        div_nonneg (div_nonneg hs0 hlenpos.le) (by norm_num)
      have hfrac1 : (((coRaters ud a b).map (simDiff a b)).sum /
          ((coRaters ud a b).length : ℚ)) / (9 / 2) ≤ 1 := by
        rw [div_le_one (by norm_num : (0 : ℚ) < 9 / 2), div_le_iff hlenpos]
        linarith
      rw [if_neg hC]
      constructor <;> linarith
    · intro _ hsame
      have hz : ((coRaters ud a b).map (simDiff a b)).sum = 0 := by
        apply List.sum_eq_zero
        intro x hx
        obtain ⟨p, hp, hpx⟩ := List.mem_map.mp hx
        rw [← hpx]
        unfold simDiff
        rw [hsame p hp]
        simp
      rw [if_neg hC, hz, zero_div, zero_div]
      norm_num

theorem C7_witness :
    (∀ p ∈ exUd, ∀ q ∈ p.2, (1 : ℚ)/2 ≤ q.2 ∧ q.2 ≤ 5) ∧
    ((-(1/9) ≤ simValue 1 2 exUd ∧ simValue 1 2 exUd ≤ 1) ∧
     (coRaters exUd 1 2 ≠ [] →
       (∀ p ∈ coRaters exUd 1 2, dlookup p.2 1 = dlookup p.2 2) →
       simValue 1 2 exUd = 1)) := by
  have hR : ∀ p ∈ exUd, ∀ q ∈ p.2, (1 : ℚ)/2 ≤ q.2 ∧ q.2 ≤ 5 := by
    norm_num [exUd, List.forall_mem_cons]
    constructor <;> rintro a b (⟨-, rfl⟩ | ⟨-, rfl⟩) <;> norm_num
  exact ⟨hR, C7_similarity_bounds 1 2 hR⟩

/-- C7 counterexample: with no co-raters for the pair (and all ratings in
range) the code returns `0`, although "every co-rater gave identical
ratings to both movies" holds vacuously — so the claimed equality with
`1.0` fails as stated. -/
theorem C7_counterexample :
    (∀ p ∈ exUdSolo, ∀ q ∈ p.2, (1 : ℚ)/2 ≤ q.2 ∧ q.2 ≤ 5) ∧
    (∀ p ∈ coRaters exUdSolo 1 2, dlookup p.2 1 = dlookup p.2 2) ∧
    simValue 1 2 exUdSolo ≠ 1 := by
  refine ⟨?_, ?_, ?_⟩
  · norm_num [exUdSolo, List.forall_mem_cons]
  · intro p hp
    have hempty : coRaters exUdSolo 1 2 = [] := rfl
    rw [hempty] at hp
    simp at hp
  · have h0 : simValue 1 2 exUdSolo = 0 := rfl
    rw [h0]
    norm_num

/-- C8: after construction, no operation changes the user dictionary (the
embedding passes it through read-only), the catalog's key set, or any
movie's id, title or rater list; similarity caches only ever gain entries,
and an existing entry is never replaced by a different value (`MdFrame`).
`correlation` is a pure function of its two list arguments and never
touches the store at all. -/
theorem C8_frame_effects {md : MovieDict} {ud : UserDict} (hG : GoodState md ud) :
    (∀ (a b : Int) (v : ℚ) (md' : MovieDict),
      get_similarity a b md ud = .ok (v, md') → MdFrame md md') ∧
    (∀ (u m : Int) (v : ℚ) (md' : MovieDict),
      predict_rating u m md ud = .ok (v, md') → MdFrame md md') ∧
    (∀ (records : List (Int × Int × ℚ)) (lst : List (Int × String × ℚ × ℚ))
      (md' : MovieDict),
      predict_ratings records md ud = .ok (lst, md') → MdFrame md md') :=
  ⟨fun _ _ _ _ h => (get_similarity_ok_frame hG h).2.2,
   fun _ _ _ _ h => (predict_rating_ok_frame hG h).2,
   fun records lst md' h => (predict_ratings_ok_frame ud records md lst md' hG h).2⟩

theorem C8_witness :
    GoodState exMd exUdSolo ∧
    MdFrame exMd
      [(1, ⟨1, "A", [1, 2], [(2, 0)]⟩), (2, ⟨2, "B", [1, 2], [(1, 0)]⟩)] := by
  have hG : GoodState exMd exUdSolo := goodState_of_empty _ _ (by decide) (by decide)
  exact ⟨hG, (C8_frame_effects hG).1 1 2 0 _ rfl⟩

/-- C9: a training rating whose movie id is absent from the catalog makes
construction fail with a raw `KeyError` (at `self.movie_dict[mov_id].users`),
not with `BadInputError`, and no engine object is produced. -/
theorem C9_construction_key_error {catalog : List (Int × String)}
    {training : List (Int × Int × ℚ)}
    (hBad : ∃ rec ∈ training, ∀ p ∈ catalog, p.1 ≠ rec.2.1) :
    mkEngine catalog training = .error .keyError :=
  mkEngine_missing_movie hBad

theorem C9_witness :
    (∃ rec ∈ [((5 : Int), (2 : Int), (3 : ℚ))], ∀ p ∈ [((1 : Int), "A")], p.1 ≠ rec.2.1) ∧
    mkEngine [(1, "A")] [(5, 2, 3)] = .error .keyError :=
  ⟨by decide, C9_construction_key_error (by decide)⟩

/-- C10: self-similarity is exactly `1` when at least one user rated the
movie (every co-rater's difference with itself is `0`), and `0` when no
user rated it. -/
theorem C10_self_similarity {md : MovieDict} {ud : UserDict} {m : Int} {movM : Movie}
    (hG : GoodState md ud) (hM : dlookup md m = some movM) :
    ∃ md', get_similarity m m md ud =
      .ok ((if ud.any (fun p => (dlookup p.2 m).isSome) then (1 : ℚ) else 0), md') := by
  obtain ⟨md', heq, _⟩ := get_similarity_ok hG hM hM
  rw [simValue_self] at heq
  exact ⟨md', heq⟩

theorem C10_witness :
    GoodState exMd exUd ∧ dlookup exMd 1 = some exMv1 ∧
    ∃ md', get_similarity 1 1 exMd exUd =
      .ok ((if exUd.any (fun p => (dlookup p.2 1).isSome) then (1 : ℚ) else 0), md') := by
  have hG : GoodState exMd exUd := goodState_of_empty _ _ (by decide) (by decide)
  exact ⟨hG, rfl, C10_self_similarity hG rfl⟩
